import Mathlib

/-!
Shallow embedding of the Bordereau consolidation core of
`GeraProposta_GUI.py` (class `BordereauGUI`): dynamic schema discovery
(`generate_headers`), per-document record extraction
(`process_excel_file`) and the orchestration loop (`process_files`).

A worksheet cell holds a scalar value: empty (`none`), text, an integer
number, or a date.  A sheet is a total function from (row, column)
(both 1-based) to such a value; a document is a workbook: a list of
sheet names together with the contents of its sheet "Folha1".
-/

/-- A calendar date (proleptic Gregorian), as carried by a `datetime` cell. -/
structure Date where
  year : Nat
  month : Nat
  day : Nat
deriving DecidableEq, Repr

/-- A scalar cell value: empty cell, text, number, or date. -/
inductive Value where
  | none : Value
  | str : String → Value
  | int : Int → Value
  | date : Date → Value
deriving DecidableEq, Repr

/-- Python truthiness of a cell value, as tested by `if category_name:`:
`None`, the empty string and the number 0 are falsy. -/
def pyTruthy : Value → Bool
  | Value.none => false
  | Value.str s => s ≠ ""
  | Value.int n => n ≠ 0
  | Value.date _ => true

/-- Two-digit zero padding used by `strftime("%d-%m-%Y")`. -/
def pad2 (n : Nat) : String :=
  if n < 10 then "0" ++ toString n else toString n

/-- `format_date_value`: `value.strftime("%d-%m-%Y")`. -/
def format_date_value (d : Date) : String :=
  pad2 d.day ++ "-" ++ pad2 d.month ++ "-" ++ toString d.year

/-- Python `str()` of a cell value (used in `"Valor " + str(category_name)`). -/
def pyStr : Value → String
  | Value.none => "None"
  | Value.str s => s
  | Value.int n => toString n
  | Value.date d => toString d.year ++ "-" ++ pad2 d.month ++ "-" ++ pad2 d.day ++ " 00:00:00"

/-- Days in the years strictly before year `y` (proleptic Gregorian),
as in `datetime.date.toordinal`. -/
def daysBeforeYear (y : Nat) : Nat :=
  365 * (y - 1) + (y - 1) / 4 - (y - 1) / 100 + (y - 1) / 400

/-- Gregorian leap-year test. -/
def isLeapYear (y : Nat) : Bool :=
  y % 4 == 0 && (y % 100 != 0 || y % 400 == 0)

/-- Cumulative day counts before each month in a non-leap year. -/
def DAYS_BEFORE_MONTH : List Nat :=
  [0, 31, 59, 90, 120, 151, 181, 212, 243, 273, 304, 334]

/-- Days in year `y` strictly before month `m`. -/
def daysBeforeMonth (y m : Nat) : Nat :=
  DAYS_BEFORE_MONTH.getD (m - 1) 0 + (if 2 < m && isLeapYear y then 1 else 0)

/-- `datetime.date.toordinal`: day number with 0001-01-01 ↦ 1. -/
def toOrdinal (d : Date) : Nat :=
  daysBeforeYear d.year + daysBeforeMonth d.year d.month + d.day

/-- `datetime.weekday()`: Monday = 0 … Sunday = 6.
0001-01-01 (ordinal 1) was a Monday. -/
def pyWeekday (d : Date) : Nat :=
  (toOrdinal d + 6) % 7

-- Constants of `GeraProposta_GUI.py`.

def SOURCE_SHEET_NAME : String := "Folha1"

def OUTPUT_SHEET_NAME : String := "Bordereaux_Geral"

/-- `ITEMS_TO_EXTRACT_STATIC`: the static cell references, with `None`
placeholders at (1-based) positions 3 and 4. -/
def ITEMS_TO_EXTRACT_STATIC : List (Option String) :=
  [some "F1", some "F5", Option.none, Option.none, some "F7", some "F3",
   some "F15", some "F13", some "F9", some "F11", some "F17"]

/-- `SUMMARY_COLUMNS`: column number, column letter, and optional custom
row offset from the "Convites" row (default offset is 2, via `summary_row`). -/
def SUMMARY_COLUMNS : List (Nat × String × Option Nat) :=
  [(6, "F", Option.none), (8, "H", Option.none), (10, "J", Option.none),
   (4, "D", Option.none), (5, "E", Option.none), (2, "B", some 5)]

def MONTHS : List String :=
  ["Janeiro", "Fevereiro", "Março", "Abril", "Maio", "Junho",
   "Julho", "Agosto", "Setembro", "Outubro", "Novembro", "Dezembro"]

def WEEKDAYS : List String :=
  ["Segunda-feira", "Terça-feira", "Quarta-feira",
   "Quinta-feira", "Sexta-feira", "Sábado", "Domingo"]

def STATIC_HEADER_COLUMNS : List String :=
  ["Nº Registo", "Data", "Mês", "Dia da Semana", "Hora", "Nome do Espetáculo",
   "Local", "Atividade", "Classificação Etária", "Evento", "Lotação Máxima"]

def SUMMARY_HEADER_COLUMNS : List String :=
  ["Total Bilheteira", "Total Postos TL", "Total Internet",
   "Total de Bilhetes", "Valor Total", "Observação"]

/-- `column_index_from_string`: Excel column letters to 1-based column number. -/
def column_to_number (s : String) : Nat :=
  s.data.foldl (fun acc c => acc * 26 + (c.toNat - 64)) 0

/-- `int()` of a digit string, as a fold over its digits. -/
def digitsToNat (l : List Char) : Nat :=
  l.foldl (fun n c => n * 10 + (c.toNat - 48)) 0

/-- Split a cell reference such as `"F15"` into (row number, column number),
as `extract_cell_value` does with its alpha/digit filters. -/
def parseCellRef (ref : String) : Nat × Nat :=
  let letters : List Char := ref.data.filter Char.isAlpha
  let digits : List Char := ref.data.filter Char.isDigit
  (digitsToNat digits, column_to_number (String.mk letters))

/-- A sheet: 1-based (row, column) to cell value. -/
def Sheet : Type := Nat → Nat → Value

/-- A source workbook: its sheet names and the contents of "Folha1". -/
structure Doc where
  sheetNames : List String
  folha1 : Sheet

/-- The two failures the core raises (`ValueError` with distinct messages). -/
inductive ExtractError where
  | missingSheet : ExtractError
  | sentinelNotFound : ExtractError
deriving DecidableEq, Repr

/-- Decidable equality for `Except`, so that concrete outcomes of the
embedded operations can be checked by evaluation. -/
instance {ε α : Type} [DecidableEq ε] [DecidableEq α] : DecidableEq (Except ε α) :=
  fun x y =>
    match x, y with
    | Except.error a, Except.error b =>
      if h : a = b then Decidable.isTrue (congrArg Except.error h)
      else Decidable.isFalse (fun hc => h (by injection hc))
    | Except.ok a, Except.ok b =>
      if h : a = b then Decidable.isTrue (congrArg Except.ok h)
      else Decidable.isFalse (fun hc => h (by injection hc))
    | Except.error _, Except.ok _ => Decidable.isFalse (fun hc => by injection hc)
    | Except.ok _, Except.error _ => Decidable.isFalse (fun hc => by injection hc)

/-- The bounded sentinel scan: starting at row `r` with `fuel` rows left to
try, return the first row whose column B holds exactly `"Convites"`. -/
def scanConvites (sheet : Sheet) : Nat → Nat → Option Nat
  | _, 0 => Option.none
  | r, fuel + 1 =>
    if sheet r 2 = Value.str "Convites" then some r
    else scanConvites sheet (r + 1) fuel

/-- `for row_num in range(24, 100)`: scan rows 24–99 for the sentinel. -/
def findConvites (sheet : Sheet) : Option Nat :=
  scanConvites sheet 24 76

/-- The dynamic header region of `generate_headers`: for each row from 24 to
the "Convites" row inclusive, read the category name (column B) and the
price (column C); if the name is truthy, append the name and
`"Valor " + str(name)`. -/
def dynamicHeaders (sheet : Sheet) (convites_row : Nat) : List Value :=
  (List.range' 24 (convites_row + 1 - 24)).foldl
    (fun acc row_num =>
      let category_name := sheet row_num 2
      let _price_value := sheet row_num 3
      if pyTruthy category_name then
        acc ++ [category_name, Value.str ("Valor " ++ pyStr category_name)]
      else acc) []

/-- `BordereauGUI.generate_headers`: derive the output header row from one
document, or fail (missing sheet / sentinel not found). -/
def generate_headers (doc : Doc) : Except ExtractError (List Value) :=
  if SOURCE_SHEET_NAME ∈ doc.sheetNames then
    match findConvites doc.folha1 with
    | Option.none => Except.error ExtractError.sentinelNotFound
    | some convites_row =>
      Except.ok ((STATIC_HEADER_COLUMNS.map Value.str)
        ++ dynamicHeaders doc.folha1 convites_row
        ++ (SUMMARY_HEADER_COLUMNS.map Value.str))
  else Except.error ExtractError.missingSheet

/-- The static-region writes of `process_excel_file`: walk the item list with
the running output column index; a `None` item advances the column only; a
date value writes its formatted form at the item's own column and the
month/weekday names at columns 3 and 4. -/
def staticWritesAux (sheet : Sheet) : List (Option String) → Nat → List (Nat × Value)
  | [], _ => []
  | Option.none :: rest, col_index => staticWritesAux sheet rest (col_index + 1)
  | some item :: rest, col_index =>
    let rc := parseCellRef item
    let value := sheet rc.1 rc.2
    (match value with
     | Value.date d =>
       [(col_index, Value.str (format_date_value d)),
        (3, Value.str (MONTHS.getD (d.month - 1) "")),
        (4, Value.str (WEEKDAYS.getD (pyWeekday d) ""))]
     | v => [(col_index, v)])
    ++ staticWritesAux sheet rest (col_index + 1)

/-- The static-region writes, starting at output column 1. -/
def staticWrites (sheet : Sheet) : List (Nat × Value) :=
  staticWritesAux sheet ITEMS_TO_EXTRACT_STATIC 1

/-- The dynamic-region writes: for each scanned row, the column-D value then
the column-E value at consecutive output columns, unconditionally. -/
def dynWritesAux (sheet : Sheet) : List Nat → Nat → List (Nat × Value)
  | [], _ => []
  | row_num :: rest, col_index =>
    (col_index, sheet row_num 4) :: (col_index + 1, sheet row_num 5)
      :: dynWritesAux sheet rest (col_index + 2)

/-- The summary-region writes: each entry of `SUMMARY_COLUMNS` is read at
`convites_row + 2` (the default) or at its custom offset from the
"Convites" row. -/
def summaryWritesAux (sheet : Sheet) (convites_row : Nat) :
    List (Nat × String × Option Nat) → Nat → List (Nat × Value)
  | [], _ => []
  | (col_num, _, off) :: rest, col_index =>
    (col_index,
      match off with
      | some row_offset => sheet (convites_row + row_offset) col_num
      | Option.none => sheet (convites_row + 2) col_num)
      :: summaryWritesAux sheet convites_row rest (col_index + 1)

/-- `BordereauGUI.process_excel_file`: the ordered list of
(output column, value) writes made into this document's output row.
Static cells are written before the sentinel scan, so a sentinel failure
still leaves the static writes behind — the error carries them. -/
def process_excel_file (doc : Doc) :
    Except (ExtractError × List (Nat × Value)) (List (Nat × Value)) :=
  if SOURCE_SHEET_NAME ∈ doc.sheetNames then
    let sheet := doc.folha1
    let sw := staticWrites sheet
    match findConvites sheet with
    | Option.none => Except.error (ExtractError.sentinelNotFound, sw)
    | some convites_row =>
      let c0 := 1 + ITEMS_TO_EXTRACT_STATIC.length
      let dyn := dynWritesAux sheet (List.range' 24 (convites_row + 1 - 24)) c0
      let c1 := c0 + 2 * (convites_row + 1 - 24)
      Except.ok (sw ++ dyn ++ summaryWritesAux sheet convites_row SUMMARY_COLUMNS c1)
  else Except.error (ExtractError.missingSheet, [])

/-- Lexicographic order on lists of a linear order, as a Bool: the order in
which Python's `sorted` compares the code points of two strings. -/
def lexLe {α : Type} [LinearOrder α] : List α → List α → Bool
  | [], _ => true
  | _ :: _, [] => false
  | a :: as, b :: bs =>
    if a < b then true else if b < a then false else lexLe as bs

/-- Filename comparison used to model `sorted(excel_files)`: lexicographic
on code points, Python's string order for paths in one folder. -/
def nameLe (a b : String) : Bool := lexLe a.data b.data

/-- One spreadsheet file of the input folder: its filename and workbook. -/
structure NamedDoc where
  name : String
  doc : Doc

/-- Insert a file into a name-sorted list, before the first file whose name
is not smaller (so earlier files stay before equal-named later ones, as in
Python's stable sort). -/
def insertByName (f : NamedDoc) : List NamedDoc → List NamedDoc
  | [] => [f]
  | g :: rest =>
    if nameLe f.name g.name then f :: g :: rest else g :: insertByName f rest

/-- `sorted(excel_files)`: the files in ascending filename order (stable
insertion sort). -/
def sortByName : List NamedDoc → List NamedDoc
  | [] => []
  | f :: rest => insertByName f (sortByName rest)

/-- The saved report: the header row (worksheet row 1), every cell write
made into the worksheet at rows ≥ 2 in program order, and the final
processed/error counters. -/
structure Run where
  header : List Value
  events : List ((Nat × Nat) × Value)
  processed : Nat
  errors : Nat
deriving DecidableEq, Repr

/-- The per-file loop of `process_files`: starting at worksheet row `row`,
process each file; a success writes its row and advances `output_row`, a
failure leaves its already-made writes at the current row and does not
advance. Returns the events and the processed/error counts. -/
def runFiles : List NamedDoc → Nat → List ((Nat × Nat) × Value) × Nat × Nat
  | [], _ => ([], 0, 0)
  | f :: rest, row =>
    match process_excel_file f.doc with
    | Except.ok ws =>
      let r := runFiles rest (row + 1)
      ((ws.map fun cv => ((row, cv.1), cv.2)) ++ r.1, r.2.1 + 1, r.2.2)
    | Except.error e =>
      let r := runFiles rest row
      ((e.2.map fun cv => ((row, cv.1), cv.2)) ++ r.1, r.2.1, r.2.2 + 1)

/-- `BordereauGUI.process_files`: with no files, or when header generation
on the first file (in filesystem enumeration order) fails, no report is
saved; otherwise the header comes from the enumeration-first file and the
files are processed in sorted-filename order starting at worksheet row 2. -/
def process_files (files : List NamedDoc) : Option Run :=
  match files with
  | [] => Option.none
  | f0 :: _ =>
    match generate_headers f0.doc with
    | Except.error _ => Option.none
    | Except.ok header_columns =>
      let r := runFiles (sortByName files) 2
      some ⟨header_columns, r.1, r.2.1, r.2.2⟩

/-- The successfully extracted files, in order, with their row writes. -/
def successRows (files : List NamedDoc) : List (String × List (Nat × Value)) :=
  files.filterMap fun f =>
    match process_excel_file f.doc with
    | Except.ok ws => some (f.name, ws)
    | Except.error _ => Option.none

/-- The value a worksheet cell holds after a list of writes: the last write
to that (row, column), if any. -/
def cellAt (events : List ((Nat × Nat) × Value)) (row col : Nat) : Option Value :=
  (events.filter fun e => e.1 = (row, col)).getLast?.map (·.2)

/-! ### Helper lemmas about the sentinel scan -/

theorem scanConvites_eq_none (sheet : Sheet) :
    ∀ fuel r, scanConvites sheet r fuel = Option.none ↔
      ∀ i, i < fuel → sheet (r + i) 2 ≠ Value.str "Convites" := by
  intro fuel
  induction fuel with
  | zero => intro r; simp [scanConvites]
  | succ n ih =>
    intro r
    by_cases h : sheet r 2 = Value.str "Convites"
    · simp only [scanConvites, h, if_pos rfl]
      constructor
      · intro hcontra; exact absurd hcontra (by simp)
      · intro hall
        exact absurd h (by simpa using hall 0 (Nat.succ_pos n))
    · simp only [scanConvites, if_neg h, ih (r + 1)]
      constructor
      · intro hall i hi
        match i with
        | 0 => simpa using h
        | j + 1 =>
          have := hall j (by omega)
          simpa [Nat.add_assoc, Nat.add_comm 1 j] using this
      · intro hall i hi
        have := hall (i + 1) (by omega)
        simpa [Nat.add_assoc, Nat.add_comm 1 i] using this

theorem scanConvites_some (sheet : Sheet) :
    ∀ fuel r s, scanConvites sheet r fuel = some s →
      sheet s 2 = Value.str "Convites" ∧ r ≤ s ∧ s < r + fuel ∧
        ∀ j, r ≤ j → j < s → sheet j 2 ≠ Value.str "Convites" := by
  intro fuel
  induction fuel with
  | zero => intro r s h; exact absurd h (by simp [scanConvites])
  | succ n ih =>
    intro r s h
    by_cases hr : sheet r 2 = Value.str "Convites"
    · simp only [scanConvites, if_pos hr] at h
      obtain rfl : r = s := by injection h
      exact ⟨hr, Nat.le_refl r, by omega, fun j h1 h2 => absurd (Nat.lt_of_le_of_lt h1 h2) (by omega)⟩
    · simp only [scanConvites, if_neg hr] at h
      obtain ⟨h1, h2, h3, h4⟩ := ih (r + 1) s h
      refine ⟨h1, by omega, by omega, fun j hj1 hj2 => ?_⟩
      rcases Nat.eq_or_lt_of_le hj1 with rfl | hlt
      · exact hr
      · exact h4 j hlt hj2

/-- The pair of dynamic header labels produced by one truthy category row. -/
def headerPair (sheet : Sheet) (r : Nat) : List Value :=
  [sheet r 2, Value.str ("Valor " ++ pyStr (sheet r 2))]

theorem dynHeaders_foldl (sheet : Sheet) (rows : List Nat) :
    ∀ acc : List Value,
      rows.foldl
        (fun acc row_num =>
          let category_name := sheet row_num 2
          let _price_value := sheet row_num 3
          if pyTruthy category_name then
            acc ++ [category_name, Value.str ("Valor " ++ pyStr category_name)]
          else acc) acc
      = acc ++ (rows.filter fun r => pyTruthy (sheet r 2)).flatMap (headerPair sheet) := by
  induction rows with
  | nil => intro acc; simp
  | cons r rest ih =>
    intro acc
    by_cases h : pyTruthy (sheet r 2)
    · simp only [List.foldl_cons, List.filter_cons, h, if_pos rfl, ih, List.flatMap_cons]
      simp [headerPair]
    · simp only [List.foldl_cons, List.filter_cons, h, ih]
      simp

theorem dynamicHeaders_eq (sheet : Sheet) (convites_row : Nat) :
    dynamicHeaders sheet convites_row
      = ((List.range' 24 (convites_row + 1 - 24)).filter
          fun r => pyTruthy (sheet r 2)).flatMap (headerPair sheet) := by
  have := dynHeaders_foldl sheet (List.range' 24 (convites_row + 1 - 24)) []
  simpa [dynamicHeaders] using this

theorem bind_headerPair_length (sheet : Sheet) (l : List Nat) :
    (l.flatMap (headerPair sheet)).length = 2 * l.length := by
  induction l with
  | nil => simp
  | cons r rest ih => simp [List.flatMap_cons, headerPair, ih]; omega

/-! ### Concrete example documents -/

/-- A document with categories "Adulto" (price 5) and "Convites";
sentinel at row 25. -/
def sheetA : Sheet := fun r c =>
  if r == 24 && c == 2 then Value.str "Adulto"
  else if r == 24 && c == 3 then Value.int 5
  else if r == 25 && c == 2 then Value.str "Convites"
  else if r == 1 && c == 6 then Value.str "RegA"
  else Value.none

def docA : Doc := ⟨["Folha1"], sheetA⟩

/-- A document whose category table is just the sentinel at row 24. -/
def sheetB : Sheet := fun r c =>
  if r == 24 && c == 2 then Value.str "Convites"
  else if r == 1 && c == 6 then Value.str "RegB"
  else Value.none

def docB : Doc := ⟨["Folha1"], sheetB⟩

/-- A document with sheet "Folha1" but no "Convites" row anywhere. -/
def sheetBad : Sheet := fun r c =>
  if r == 1 && c == 6 then Value.str "LEAK" else Value.none

def docBad : Doc := ⟨["Folha1"], sheetBad⟩

/-- A document whose static cell F5 holds the date 2024-01-15 (a Monday). -/
def sheetDate : Sheet := fun r c =>
  if r == 5 && c == 6 then Value.date ⟨2024, 1, 15⟩
  else if r == 24 && c == 2 then Value.str "Convites"
  else Value.none

def docDate : Doc := ⟨["Folha1"], sheetDate⟩

/-- A document whose sentinel row is 40 (rows 24–39 have empty column B). -/
def sheet40 : Sheet := fun r c =>
  if r == 40 && c == 2 then Value.str "Convites" else Value.none

def doc40 : Doc := ⟨["Folha1"], sheet40⟩

/-! ### Structure lemmas for discovery and extraction -/

/-- With the sheet present and the sentinel found at `s`, the generated
header is static labels ++ one `headerPair` per truthy category row in
24..`s` ++ summary labels. -/
theorem generate_headers_structure (doc : Doc) (s : Nat)
    (hsheet : SOURCE_SHEET_NAME ∈ doc.sheetNames)
    (hfind : findConvites doc.folha1 = some s) :
    generate_headers doc
      = Except.ok ((STATIC_HEADER_COLUMNS.map Value.str)
          ++ ((List.range' 24 (s + 1 - 24)).filter
                fun r => pyTruthy (doc.folha1 r 2)).flatMap (headerPair doc.folha1)
          ++ (SUMMARY_HEADER_COLUMNS.map Value.str)) := by
  simp only [generate_headers, if_pos hsheet, hfind, dynamicHeaders_eq]

/-- With the sheet present and the sentinel found at `s`, extraction
succeeds and its writes are the static region (from column 1), the dynamic
region (from column 12), then the summary region. -/
theorem process_excel_file_ok (doc : Doc) (s : Nat)
    (hsheet : SOURCE_SHEET_NAME ∈ doc.sheetNames)
    (hfind : findConvites doc.folha1 = some s) :
    process_excel_file doc
      = Except.ok (staticWrites doc.folha1
          ++ dynWritesAux doc.folha1 (List.range' 24 (s + 1 - 24)) 12
          ++ summaryWritesAux doc.folha1 s SUMMARY_COLUMNS (12 + 2 * (s + 1 - 24))) := by
  simp only [process_excel_file, if_pos hsheet, hfind]
  rfl

/-! ### C1 — schema column count -/

/-- C1: for a document whose sheet "Folha1" has "Convites" in column B at
sentinel row `s` (found in 24..99), the discovered header list is exactly
the 11 static labels, then, for each row in 24..`s` whose column-B value is
non-empty (truthy, as the code tests), the category name followed by
`"Valor " ++ name`, then the 6 summary labels; its length is
`11 + 2k + 6` where `k` is the number of such rows. -/
theorem c1_schema_column_count (doc : Doc) (s : Nat)
    (hsheet : SOURCE_SHEET_NAME ∈ doc.sheetNames)
    (hfind : findConvites doc.folha1 = some s) :
    generate_headers doc
      = Except.ok ((STATIC_HEADER_COLUMNS.map Value.str)
          ++ ((List.range' 24 (s + 1 - 24)).filter
                fun r => pyTruthy (doc.folha1 r 2)).flatMap (headerPair doc.folha1)
          ++ (SUMMARY_HEADER_COLUMNS.map Value.str))
    ∧ ∀ hs, generate_headers doc = Except.ok hs →
        hs.length = 11 + 2 * ((List.range' 24 (s + 1 - 24)).filter
              fun r => pyTruthy (doc.folha1 r 2)).length + 6 := by
  have hmain := generate_headers_structure doc s hsheet hfind
  refine ⟨hmain, fun hs hhs => ?_⟩
  rw [hmain] at hhs
  injection hhs with h
  subst h
  simp only [List.length_append, List.length_map, bind_headerPair_length,
    STATIC_HEADER_COLUMNS, SUMMARY_HEADER_COLUMNS, List.length_cons, List.length_nil]

theorem c1_witness :
    (SOURCE_SHEET_NAME ∈ docA.sheetNames ∧ findConvites docA.folha1 = some 25)
    ∧ ∀ hs, generate_headers docA = Except.ok hs →
        hs.length = 11 + 2 * ((List.range' 24 (25 + 1 - 24)).filter
              fun r => pyTruthy (docA.folha1 r 2)).length + 6 :=
  ⟨⟨by decide, by decide⟩, (c1_schema_column_count docA 25 (by decide) (by decide)).2⟩

/-! ### C2 — sentinel failure and run abort -/

/-- C2: with sheet "Folha1" present, schema discovery fails with the
sentinel-not-found error iff no row in 24..99 has column B exactly
"Convites"; when a sentinel is found it is the first matching row from 24
upward (and lies in 24..99); and any schema-discovery failure on the first
document makes `process_files` produce no report. -/
theorem c2_sentinel_iff_abort (doc : Doc) (hsheet : SOURCE_SHEET_NAME ∈ doc.sheetNames) :
    (generate_headers doc = Except.error ExtractError.sentinelNotFound ↔
        ∀ r, 24 ≤ r → r ≤ 99 → doc.folha1 r 2 ≠ Value.str "Convites")
    ∧ (∀ s, findConvites doc.folha1 = some s →
        doc.folha1 s 2 = Value.str "Convites" ∧ 24 ≤ s ∧ s ≤ 99 ∧
          ∀ r, 24 ≤ r → r < s → doc.folha1 r 2 ≠ Value.str "Convites")
    ∧ ∀ (name : String) (rest : List NamedDoc) (e : ExtractError),
        generate_headers doc = Except.error e →
        process_files (⟨name, doc⟩ :: rest) = Option.none := by
  refine ⟨?_, ?_, ?_⟩
  · cases hf : findConvites doc.folha1 with
    | none =>
      simp only [generate_headers, if_pos hsheet, hf]
      constructor
      · intro _ r h1 h2
        have := (scanConvites_eq_none doc.folha1 76 24).mp hf (r - 24) (by omega)
        have heq : 24 + (r - 24) = r := by omega
        rwa [heq] at this
      · intro _; trivial
    | some s =>
      simp only [generate_headers, if_pos hsheet, hf]
      obtain ⟨h1, h2, h3, _⟩ := scanConvites_some doc.folha1 76 24 s hf
      constructor
      · intro hcontra; exact absurd hcontra (by simp)
      · intro hall; exact absurd h1 (hall s h2 (by omega))
  · intro s hf
    obtain ⟨h1, h2, h3, h4⟩ := scanConvites_some doc.folha1 76 24 s hf
    exact ⟨h1, h2, by omega, h4⟩
  · intro name rest e hgen
    simp [process_files, hgen]

theorem c2_witness :
    (SOURCE_SHEET_NAME ∈ docBad.sheetNames
      ∧ generate_headers docBad = Except.error ExtractError.sentinelNotFound)
    ∧ process_files [⟨"x.xlsx", docBad⟩] = Option.none :=
  ⟨⟨by decide, by decide⟩,
    (c2_sentinel_iff_abort docBad (by decide)).2.2 "x.xlsx" []
      ExtractError.sentinelNotFound (by decide)⟩

/-! ### C3 — unconditional D/E pairs vs. B/C-derived headers -/

theorem dynWritesAux_getElem (sheet : Sheet) :
    ∀ (rows : List Nat) (c0 i r : Nat), rows[i]? = some r →
      (c0 + 2 * i, sheet r 4) ∈ dynWritesAux sheet rows c0 ∧
      (c0 + 2 * i + 1, sheet r 5) ∈ dynWritesAux sheet rows c0 := by
  intro rows
  induction rows with
  | nil => intro c0 i r h; simp at h
  | cons a rest ih =>
    intro c0 i r h
    match i with
    | 0 =>
      simp only [List.getElem?_cons_zero] at h
      injection h with h
    

      subst h
      constructor
      · simp [dynWritesAux]
      · simp [dynWritesAux]
    | j + 1 =>
      simp only [List.getElem?_cons_succ] at h
      obtain ⟨h1, h2⟩ := ih (c0 + 2) j r h
      have e1 : c0 + 2 + 2 * j = c0 + 2 * (j + 1) := by omega
      have e2 : c0 + 2 + 2 * j + 1 = c0 + 2 * (j + 1) + 1 := by omega
      rw [e1] at h1
      rw [e2] at h2
      exact ⟨List.mem_cons_of_mem _ (List.mem_cons_of_mem _ h1),
             List.mem_cons_of_mem _ (List.mem_cons_of_mem _ h2)⟩

/-- C3: during extraction, for every row from 24 to the sentinel row `s`
inclusive, the column-D and column-E values of that row are written to the
output row at consecutive columns, in that order, unconditionally — in
particular also when the row's column-B category cell is empty — while
header derivation builds its pairs from the distinct column pair B
(name, column 2) / C (price, column 3), appending labels only for truthy
column-B values. -/
theorem c3_unconditional_value_pairs (doc : Doc) (s : Nat) (ws : List (Nat × Value))
    (hsheet : SOURCE_SHEET_NAME ∈ doc.sheetNames)
    (hfind : findConvites doc.folha1 = some s)
    (hok : process_excel_file doc = Except.ok ws) :
    (∀ r, 24 ≤ r → r ≤ s →
        (12 + 2 * (r - 24), doc.folha1 r 4) ∈ ws ∧
        (12 + 2 * (r - 24) + 1, doc.folha1 r 5) ∈ ws)
    ∧ generate_headers doc
        = Except.ok ((STATIC_HEADER_COLUMNS.map Value.str)
            ++ ((List.range' 24 (s + 1 - 24)).filter
                  fun r => pyTruthy (doc.folha1 r 2)).flatMap (headerPair doc.folha1)
            ++ (SUMMARY_HEADER_COLUMNS.map Value.str)) := by
  have hws := process_excel_file_ok doc s hsheet hfind
  rw [hok] at hws
  injection hws with hws
  refine ⟨fun r h1 h2 => ?_, generate_headers_structure doc s hsheet hfind⟩
  have hget : (List.range' 24 (s + 1 - 24))[r - 24]? = some r := by
    have h0 := List.getElem?_range' 24 1 (m := r - 24) (n := s + 1 - 24) (by omega)
    rw [h0]
    congr 1
    omega
  obtain ⟨hm1, hm2⟩ := dynWritesAux_getElem doc.folha1 (List.range' 24 (s + 1 - 24)) 12 (r - 24) r hget
  subst hws
  constructor
  · exact List.mem_append_left _ (List.mem_append_right _ hm1)
  · exact List.mem_append_left _ (List.mem_append_right _ hm2)

/-- A document whose row 24 has an empty category name but values in
columns D and E; sentinel at row 25. -/
def sheetBlank : Sheet := fun r c =>
  if r == 24 && c == 4 then Value.int 1
  else if r == 24 && c == 5 then Value.int 2
  else if r == 25 && c == 2 then Value.str "Convites"
  else Value.none

def docBlank : Doc := ⟨["Folha1"], sheetBlank⟩

/-- The row writes extraction makes on `docBlank`. -/
def wsBlank : List (Nat × Value) := ((process_excel_file docBlank).toOption).getD []

theorem c3_witness :
    (pyTruthy (docBlank.folha1 24 2) = false
      ∧ findConvites docBlank.folha1 = some 25
      ∧ process_excel_file docBlank = Except.ok wsBlank)
    ∧ (12 + 2 * (24 - 24), docBlank.folha1 24 4) ∈ wsBlank
    ∧ (12 + 2 * (24 - 24) + 1, docBlank.folha1 24 5) ∈ wsBlank :=
  ⟨⟨by decide, by decide, by decide⟩,
    ((c3_unconditional_value_pairs docBlank 25 wsBlank (by decide) (by decide)
        (by decide)).1 24 (by decide) (by decide)).1,
    ((c3_unconditional_value_pairs docBlank 25 wsBlank (by decide) (by decide)
        (by decide)).1 24 (by decide) (by decide)).2⟩

/-! ### C4 — summary metrics at s+2, observation at s+5 -/

/-- C4: for a document with sentinel row `s`, the five summary metrics are
read at row `s + 2` from columns F (6), H (8), J (10), D (4), E (5) in that
order, the observation from column B (2) at row `s + 5`, and the six values
are appended in that order right after the dynamic region. -/
theorem c4_summary_offsets (doc : Doc) (s : Nat)
    (hsheet : SOURCE_SHEET_NAME ∈ doc.sheetNames)
    (hfind : findConvites doc.folha1 = some s) :
    process_excel_file doc
      = Except.ok (staticWrites doc.folha1
          ++ dynWritesAux doc.folha1 (List.range' 24 (s + 1 - 24)) 12
          ++ [(12 + 2 * (s + 1 - 24), doc.folha1 (s + 2) 6),
              (12 + 2 * (s + 1 - 24) + 1, doc.folha1 (s + 2) 8),
              (12 + 2 * (s + 1 - 24) + 2, doc.folha1 (s + 2) 10),
              (12 + 2 * (s + 1 - 24) + 3, doc.folha1 (s + 2) 4),
              (12 + 2 * (s + 1 - 24) + 4, doc.folha1 (s + 2) 5),
              (12 + 2 * (s + 1 - 24) + 5, doc.folha1 (s + 5) 2)]) := by
  rw [process_excel_file_ok doc s hsheet hfind]
  rfl

theorem c4_witness :
    process_excel_file doc40
      = Except.ok (staticWrites doc40.folha1
          ++ dynWritesAux doc40.folha1 (List.range' 24 17) 12
          ++ [(46, doc40.folha1 42 6), (47, doc40.folha1 42 8),
              (48, doc40.folha1 42 10), (49, doc40.folha1 42 4),
              (50, doc40.folha1 42 5), (51, doc40.folha1 45 2)]) :=
  c4_summary_offsets doc40 40 (by decide) (by decide)

/-! ### C5 — date decomposition side effects -/

theorem staticWritesAux_date_mem (sheet : Sheet) :
    ∀ (items : List (Option String)) (c0 i : Nat) (ref : String) (d : Date),
      items[i]? = some (some ref) →
      sheet (parseCellRef ref).1 (parseCellRef ref).2 = Value.date d →
      (c0 + i, Value.str (format_date_value d)) ∈ staticWritesAux sheet items c0 ∧
      (3, Value.str (MONTHS.getD (d.month - 1) "")) ∈ staticWritesAux sheet items c0 ∧
      (4, Value.str (WEEKDAYS.getD (pyWeekday d) "")) ∈ staticWritesAux sheet items c0 := by
  intro items
  induction items with
  | nil => intro c0 i ref d h; simp at h
  | cons a rest ih =>
    intro c0 i ref d h hdate
    match i with
    | 0 =>
      simp only [List.getElem?_cons_zero] at h
      injection h with h
      subst h
      simp only [staticWritesAux, hdate]
      refine ⟨?_, ?_, ?_⟩
      · exact List.mem_append_left _ (by simp)
      · exact List.mem_append_left _ (by simp)
      · exact List.mem_append_left _ (by simp)
    | j + 1 =>
      simp only [List.getElem?_cons_succ] at h
      obtain ⟨h1, h2, h3⟩ := ih (c0 + 1) j ref d h hdate
      have e1 : c0 + 1 + j = c0 + (j + 1) := by omega
      rw [e1] at h1
      cases a with
      | none => exact ⟨h1, h2, h3⟩
      | some item =>
        simp only [staticWritesAux]
        exact ⟨List.mem_append_right _ h1, List.mem_append_right _ h2,
               List.mem_append_right _ h3⟩

/-- C5: whenever the static item at (0-based) index `i` refers to a cell
holding a date `d`, extraction writes the "DD-MM-YYYY" string at the item's
own output column `1 + i`, the month name (1-indexed in the 12-entry
January-first table) at column 3 and the weekday name (0-indexed in the
7-entry Monday-first table) at column 4 — whichever static field held the
date; and 2024-01-15 decomposes to "15-01-2024" / "Janeiro" /
"Segunda-feira". -/
theorem c5_date_decomposition (sheet : Sheet) (i : Nat) (ref : String) (d : Date)
    (hitem : ITEMS_TO_EXTRACT_STATIC[i]? = some (some ref))
    (hdate : sheet (parseCellRef ref).1 (parseCellRef ref).2 = Value.date d) :
    ((1 + i, Value.str (format_date_value d)) ∈ staticWrites sheet
      ∧ (3, Value.str (MONTHS.getD (d.month - 1) "")) ∈ staticWrites sheet
      ∧ (4, Value.str (WEEKDAYS.getD (pyWeekday d) "")) ∈ staticWrites sheet)
    ∧ (format_date_value ⟨2024, 1, 15⟩ = "15-01-2024"
      ∧ MONTHS.getD ((1 : Nat) - 1) "" = "Janeiro"
      ∧ WEEKDAYS.getD (pyWeekday ⟨2024, 1, 15⟩) "" = "Segunda-feira") :=
  ⟨staticWritesAux_date_mem sheet ITEMS_TO_EXTRACT_STATIC 1 i ref d hitem hdate,
   by decide, by decide, by decide⟩

theorem c5_witness :
    (ITEMS_TO_EXTRACT_STATIC[1]? = some (some "F5")
      ∧ sheetDate (parseCellRef "F5").1 (parseCellRef "F5").2 = Value.date ⟨2024, 1, 15⟩)
    ∧ (2, Value.str "15-01-2024") ∈ staticWrites sheetDate
    ∧ (3, Value.str "Janeiro") ∈ staticWrites sheetDate
    ∧ (4, Value.str "Segunda-feira") ∈ staticWrites sheetDate :=
  ⟨⟨by decide, by decide⟩,
    (c5_date_decomposition sheetDate 1 "F5" ⟨2024, 1, 15⟩ (by decide) (by decide)).1.1,
    (c5_date_decomposition sheetDate 1 "F5" ⟨2024, 1, 15⟩ (by decide) (by decide)).1.2.1,
    (c5_date_decomposition sheetDate 1 "F5" ⟨2024, 1, 15⟩ (by decide) (by decide)).1.2.2⟩

/-! ### C10 — columns 3 and 4 stay empty without dates -/

/-- Whether a value is a date (`isinstance(value, datetime)`). -/
def isDateValue : Value → Bool
  | Value.date _ => true
  | _ => false

/-- Whether a static item refers to a cell currently holding a date. -/
def staticFieldIsDate (sheet : Sheet) : Option String → Bool
  | some ref => isDateValue (sheet (parseCellRef ref).1 (parseCellRef ref).2)
  | Option.none => false

theorem staticWritesAux_no_date_col (sheet : Sheet) :
    ∀ (items : List (Option String)) (c0 col : Nat) (v : Value),
      (∀ item ∈ items, staticFieldIsDate sheet item = false) →
      (col, v) ∈ staticWritesAux sheet items c0 →
      ∃ i ref, items[i]? = some (some ref) ∧ col = c0 + i := by
  intro items
  induction items with
  | nil => intro c0 col v _ hmem; simp [staticWritesAux] at hmem
  | cons a rest ih =>
    intro c0 col v hnd hmem
    have hndrest : ∀ item ∈ rest, staticFieldIsDate sheet item = false :=
      fun item hitem => hnd item (List.mem_cons_of_mem _ hitem)
    cases a with
    | none =>
      simp only [staticWritesAux] at hmem
      obtain ⟨i, ref, h1, h2⟩ := ih (c0 + 1) col v hndrest hmem
      exact ⟨i + 1, ref, by simpa using h1, by omega⟩
    | some item =>
      have hnditem : isDateValue (sheet (parseCellRef item).1 (parseCellRef item).2) = false :=
        hnd (some item) (List.mem_cons_self _ _)
      simp only [staticWritesAux] at hmem
      cases hv : sheet (parseCellRef item).1 (parseCellRef item).2 with
      | date d => rw [hv] at hnditem; simp [isDateValue] at hnditem
      | none =>
        rw [hv] at hmem
        rcases List.mem_append.mp hmem with hl | hr
        · refine ⟨0, item, by simp, ?_⟩
          simp at hl
          omega
        · obtain ⟨i, ref, h1, h2⟩ := ih (c0 + 1) col v hndrest hr
          exact ⟨i + 1, ref, by simpa using h1, by omega⟩
      | str s =>
        rw [hv] at hmem
        rcases List.mem_append.mp hmem with hl | hr
        · refine ⟨0, item, by simp, ?_⟩
          simp at hl
          omega
        · obtain ⟨i, ref, h1, h2⟩ := ih (c0 + 1) col v hndrest hr
          exact ⟨i + 1, ref, by simpa using h1, by omega⟩
      | int n =>
        rw [hv] at hmem
        rcases List.mem_append.mp hmem with hl | hr
        · refine ⟨0, item, by simp, ?_⟩
          simp at hl
          omega
        · obtain ⟨i, ref, h1, h2⟩ := ih (c0 + 1) col v hndrest hr
          exact ⟨i + 1, ref, by simpa using h1, by omega⟩

theorem dynWritesAux_col_ge (sheet : Sheet) :
    ∀ (rows : List Nat) (c0 col : Nat) (v : Value),
      (col, v) ∈ dynWritesAux sheet rows c0 → c0 ≤ col := by
  intro rows
  induction rows with
  | nil => intro c0 col v h; simp [dynWritesAux] at h
  | cons r rest ih =>
    intro c0 col v h
    simp only [dynWritesAux, List.mem_cons] at h
    rcases h with h | h | h
    · injection h with h1 _; omega
    · injection h with h1 _; omega
    · have := ih (c0 + 2) col v h; omega

theorem summaryWritesAux_col_ge (sheet : Sheet) (cr : Nat) :
    ∀ (entries : List (Nat × String × Option Nat)) (c0 col : Nat) (v : Value),
      (col, v) ∈ summaryWritesAux sheet cr entries c0 → c0 ≤ col := by
  intro entries
  induction entries with
  | nil => intro c0 col v h; simp [summaryWritesAux] at h
  | cons e rest ih =>
    intro c0 col v h
    obtain ⟨cn, cl, off⟩ := e
    simp only [summaryWritesAux, List.mem_cons] at h
    rcases h with h | h
    · injection h with h1 _; omega
    · have := ih (c0 + 1) col v h; omega

/-- Inversion of a successful extraction: the sheet was present, a sentinel
row was found, and the writes are the three regions. -/
theorem process_excel_file_ok_inv (doc : Doc) (ws : List (Nat × Value))
    (hok : process_excel_file doc = Except.ok ws) :
    SOURCE_SHEET_NAME ∈ doc.sheetNames ∧
    ∃ s, findConvites doc.folha1 = some s ∧
      ws = staticWrites doc.folha1
        ++ dynWritesAux doc.folha1 (List.range' 24 (s + 1 - 24)) 12
        ++ summaryWritesAux doc.folha1 s SUMMARY_COLUMNS (12 + 2 * (s + 1 - 24)) := by
  by_cases hs : SOURCE_SHEET_NAME ∈ doc.sheetNames
  · refine ⟨hs, ?_⟩
    cases hf : findConvites doc.folha1 with
    | none =>
      rw [process_excel_file, if_pos hs] at hok
      simp only [hf] at hok
      cases hok
    | some s =>
      have := process_excel_file_ok doc s hs hf
      rw [hok] at this
      injection this with h
      exact ⟨s, rfl, h⟩
  · rw [process_excel_file, if_neg hs] at hok
    cases hok

/-- C10: if no static field of the document holds a date, columns 3 ("Mês")
and 4 ("Dia da Semana") of its output row are never written: the static item
list has `None` placeholders at (0-based) indices 2 and 3, which only
advance the column counter, and every other region targets columns ≥ 12. -/
theorem c10_columns_3_4_untouched_without_dates (doc : Doc) (ws : List (Nat × Value))
    (hnodate : ITEMS_TO_EXTRACT_STATIC.all
        (fun item => !staticFieldIsDate doc.folha1 item) = true)
    (hok : process_excel_file doc = Except.ok ws) :
    (ITEMS_TO_EXTRACT_STATIC[2]? = some Option.none
      ∧ ITEMS_TO_EXTRACT_STATIC[3]? = some Option.none)
    ∧ ∀ v : Value, (3, v) ∉ ws ∧ (4, v) ∉ ws := by
  obtain ⟨hs, s, hf, hws⟩ := process_excel_file_ok_inv doc ws hok
  have hnd : ∀ item ∈ ITEMS_TO_EXTRACT_STATIC, staticFieldIsDate doc.folha1 item = false := by
    intro item hitem
    have := List.all_eq_true.mp hnodate item hitem
    simpa using this
  refine ⟨⟨by decide, by decide⟩, fun v => ⟨?_, ?_⟩⟩
  · intro hmem
    rw [hws] at hmem
    rcases List.mem_append.mp hmem with hl | hsum
    · rcases List.mem_append.mp hl with hst | hdy
      · obtain ⟨i, ref, h1, h2⟩ := staticWritesAux_no_date_col doc.folha1
          ITEMS_TO_EXTRACT_STATIC 1 3 v hnd hst
        have hi : i = 2 := by omega
        subst hi
        simp [ITEMS_TO_EXTRACT_STATIC] at h1
      · have := dynWritesAux_col_ge doc.folha1 _ 12 3 v hdy; omega
    · have := summaryWritesAux_col_ge doc.folha1 s _ _ 3 v hsum; omega
  · intro hmem
    rw [hws] at hmem
    rcases List.mem_append.mp hmem with hl | hsum
    · rcases List.mem_append.mp hl with hst | hdy
      · obtain ⟨i, ref, h1, h2⟩ := staticWritesAux_no_date_col doc.folha1
          ITEMS_TO_EXTRACT_STATIC 1 4 v hnd hst
        have hi : i = 3 := by omega
        subst hi
        simp [ITEMS_TO_EXTRACT_STATIC] at h1
      · have := dynWritesAux_col_ge doc.folha1 _ 12 4 v hdy; omega
    · have := summaryWritesAux_col_ge doc.folha1 s _ _ 4 v hsum; omega

/-- The row writes extraction makes on `docA`. -/
def wsA : List (Nat × Value) := ((process_excel_file docA).toOption).getD []

theorem c10_witness :
    (ITEMS_TO_EXTRACT_STATIC.all
        (fun item => !staticFieldIsDate docA.folha1 item) = true
      ∧ process_excel_file docA = Except.ok wsA)
    ∧ (3, Value.str "Janeiro") ∉ wsA ∧ (4, Value.none) ∉ wsA :=
  ⟨⟨by decide, by decide⟩,
    ((c10_columns_3_4_untouched_without_dates docA wsA (by decide) (by decide)).2
      (Value.str "Janeiro")).1,
    ((c10_columns_3_4_untouched_without_dates docA wsA (by decide) (by decide)).2
      Value.none).2⟩

/-! ### Order lemmas for the filename sort -/

theorem lexLe_total {α : Type} [LinearOrder α] :
    ∀ a b : List α, (lexLe a b || lexLe b a) = true := by
  intro a
  induction a with
  | nil => intro b; simp [lexLe]
  | cons x xs ih =>
    intro b
    cases b with
    | nil => simp [lexLe]
    | cons y ys =>
      by_cases h1 : x < y
      · simp [lexLe, h1]
      · by_cases h2 : y < x
        · simp [lexLe, h1, h2]
        · simp [lexLe, h1, h2, ih ys]

theorem lexLe_trans {α : Type} [LinearOrder α] :
    ∀ a b c : List α, lexLe a b = true → lexLe b c = true → lexLe a c = true := by
  intro a
  induction a with
  | nil => intro b c _ _; simp [lexLe]
  | cons x xs ih =>
    intro b c hab hbc
    cases b with
    | nil => simp [lexLe] at hab
    | cons y ys =>
      cases c with
      | nil => simp [lexLe] at hbc
      | cons z zs =>
        by_cases hxy : x < y
        · by_cases hyz : y < z
          · simp [lexLe, lt_trans hxy hyz]
          · by_cases hzy : z < y
            · simp [lexLe, hyz, hzy] at hbc
            · have hyz' : y = z := le_antisymm (not_lt.mp hzy) (not_lt.mp hyz)
              subst hyz'
              simp [lexLe, hxy]
        · by_cases hyx : y < x
          · simp [lexLe, hxy, hyx] at hab
          · have hxy' : x = y := le_antisymm (not_lt.mp hyx) (not_lt.mp hxy)
            subst hxy'
            by_cases hxz : x < z
            · simp [lexLe, hxz]
            · by_cases hzx : z < x
              · simp [lexLe, hxz, hzx] at hbc
              · simp only [lexLe, if_neg hxy, if_neg hyx] at hab
                simp only [lexLe, if_neg hxz, if_neg hzx] at hbc ⊢
                exact ih ys zs hab hbc

theorem lexLe_antisymm {α : Type} [LinearOrder α] :
    ∀ a b : List α, lexLe a b = true → lexLe b a = true → a = b := by
  intro a
  induction a with
  | nil =>
    intro b hab hba
    cases b with
    | nil => rfl
    | cons y ys => simp [lexLe] at hba
  | cons x xs ih =>
    intro b hab hba
    cases b with
    | nil => simp [lexLe] at hab
    | cons y ys =>
      by_cases hxy : x < y
      · simp [lexLe, hxy, asymm hxy] at hba
      · by_cases hyx : y < x
        · simp [lexLe, hxy, hyx] at hab
        · have hxy' : x = y := le_antisymm (not_lt.mp hyx) (not_lt.mp hxy)
          subst hxy'
          simp only [lexLe, if_neg hxy, if_neg hyx] at hab hba
          rw [ih ys hab hba]

theorem nameLe_antisymm (a b : String) (hab : nameLe a b = true) (hba : nameLe b a = true) :
    a = b := by
  have h := lexLe_antisymm a.data b.data hab hba
  cases a
  cases b
  exact congrArg String.mk h

/-! ### Sorted permutations with distinct names coincide -/

theorem sorted_perm_nodup_eq :
    ∀ l₁ l₂ : List NamedDoc, l₁.Perm l₂ →
      l₁.Pairwise (fun a b => nameLe a.name b.name = true) →
      l₂.Pairwise (fun a b => nameLe a.name b.name = true) →
      (l₁.map NamedDoc.name).Nodup → l₁ = l₂ := by
  intro l₁
  induction l₁ with
  | nil =>
    intro l₂ hp _ _ _
    exact (List.Perm.eq_nil hp.symm).symm
  | cons a t₁ ih =>
    intro l₂ hp hs₁ hs₂ hnd
    cases l₂ with
    | nil => exact absurd (List.Perm.eq_nil hp) (by simp)
    | cons b t₂ =>
      have hbmem : b ∈ a :: t₁ := hp.mem_iff.mpr (List.mem_cons_self b t₂)
      have hba : b = a := by
        rcases List.mem_cons.mp hbmem with h | h
        · exact h
        · have hamem : a ∈ b :: t₂ := hp.mem_iff.mp (List.mem_cons_self a t₁)
          have h1 : nameLe a.name b.name = true := (List.pairwise_cons.mp hs₁).1 b h
          rcases List.mem_cons.mp hamem with h' | h'
          · exact h' ▸ rfl
          · have h2 : nameLe b.name a.name = true := (List.pairwise_cons.mp hs₂).1 a h'
            have hname : a.name = b.name := nameLe_antisymm _ _ h1 h2
            exfalso
            have hmemname : a.name ∈ t₁.map NamedDoc.name := by
              rw [hname]
              exact List.mem_map_of_mem _ h
            exact (List.nodup_cons.mp (by simpa using hnd)).1 hmemname
      subst hba
      have ht : t₁ = t₂ := ih t₂ hp.cons_inv (List.pairwise_cons.mp hs₁).2
        (List.pairwise_cons.mp hs₂).2 (List.nodup_cons.mp (by simpa using hnd)).2
      rw [ht]

theorem insertByName_perm (f : NamedDoc) :
    ∀ l : List NamedDoc, (insertByName f l).Perm (f :: l) := by
  intro l
  induction l with
  | nil => exact List.Perm.refl _
  | cons g rest ih =>
    by_cases h : nameLe f.name g.name
    · rw [insertByName, if_pos h]
    · rw [insertByName, if_neg h]
      exact (ih.cons g).trans (List.Perm.swap f g rest)

theorem sortByName_perm : ∀ l : List NamedDoc, (sortByName l).Perm l := by
  intro l
  induction l with
  | nil => exact List.Perm.refl _
  | cons f rest ih =>
    exact (insertByName_perm f (sortByName rest)).trans (ih.cons f)

theorem insertByName_sorted (f : NamedDoc) :
    ∀ l : List NamedDoc, l.Pairwise (fun a b => nameLe a.name b.name = true) →
      (insertByName f l).Pairwise (fun a b => nameLe a.name b.name = true) := by
  intro l
  induction l with
  | nil => intro _; simp [insertByName]
  | cons g rest ih =>
    intro hp
    obtain ⟨hg, hrest⟩ := List.pairwise_cons.mp hp
    by_cases h : nameLe f.name g.name
    · rw [insertByName, if_pos h]
      refine List.pairwise_cons.mpr ⟨?_, hp⟩
      intro b hb
      rcases List.mem_cons.mp hb with rfl | hb'
      · exact h
      · exact lexLe_trans _ _ _ h (hg b hb')
    · rw [insertByName, if_neg h]
      have hgf : nameLe g.name f.name = true := by
        have htot := lexLe_total f.name.data g.name.data
        rcases Bool.or_eq_true_iff.mp htot with h' | h'
        · exact absurd h' h
        · exact h'
      refine List.pairwise_cons.mpr ⟨?_, ih hrest⟩
      intro b hb
      have hb2 : b ∈ f :: rest := (insertByName_perm f rest).mem_iff.mp hb
      rcases List.mem_cons.mp hb2 with rfl | hb'
      · exact hgf
      · exact hg b hb'

theorem sortByName_sorted (l : List NamedDoc) :
    (sortByName l).Pairwise (fun a b => nameLe a.name b.name = true) := by
  induction l with
  | nil => simp [sortByName]
  | cons f rest ih => exact insertByName_sorted f (sortByName rest) ih

theorem sortByName_eq_of_perm (l₁ l₂ : List NamedDoc) (hp : l₁.Perm l₂)
    (hnd : (l₁.map NamedDoc.name).Nodup) : sortByName l₁ = sortByName l₂ := by
  apply sorted_perm_nodup_eq
  · exact (sortByName_perm l₁).trans (hp.trans (sortByName_perm l₂).symm)
  · exact sortByName_sorted l₁
  · exact sortByName_sorted l₂
  · have hperm : (sortByName l₁).map NamedDoc.name |>.Perm (l₁.map NamedDoc.name) :=
      List.Perm.map _ (sortByName_perm l₁)
    exact (List.Perm.nodup_iff hperm).mpr hnd

/-! ### Placement of successful rows by the per-file loop -/

theorem runFiles_success_mem :
    ∀ (files : List NamedDoc) (row j : Nat) (nm : String) (ws : List (Nat × Value)),
      (successRows files)[j]? = some (nm, ws) →
      ∀ cv ∈ ws, ((row + j, cv.1), cv.2) ∈ (runFiles files row).1 := by
  intro files
  induction files with
  | nil => intro row j nm ws h; simp [successRows] at h
  | cons f rest ih =>
    intro row j nm ws h cv hcv
    cases hpf : process_excel_file f.doc with
    | ok w =>
      have hsr : successRows (f :: rest) = (f.name, w) :: successRows rest := by
        simp [successRows, List.filterMap_cons, hpf]
      rw [hsr] at h
      match j with
      | 0 =>
        simp only [List.getElem?_cons_zero] at h
        injection h with h
        have h2 : w = ws := congrArg Prod.snd h
        subst h2
        simp only [runFiles, hpf]
        exact List.mem_append_left _ (List.mem_map_of_mem _ hcv)
      | j + 1 =>
        simp only [List.getElem?_cons_succ] at h
        have hmem := ih (row + 1) j nm ws h cv hcv
        have e1 : row + 1 + j = row + (j + 1) := by omega
        rw [e1] at hmem
        simp only [runFiles, hpf]
        exact List.mem_append_right _ hmem
    | error e =>
      have hsr : successRows (f :: rest) = successRows rest := by
        simp [successRows, List.filterMap_cons, hpf]
      rw [hsr] at h
      have hmem := ih row j nm ws h cv hcv
      simp only [runFiles, hpf]
      exact List.mem_append_right _ hmem

/-- Inversion of a produced report: the input was non-empty, the header came
from the enumeration-first file, and events/counters come from the per-file
loop over the sorted files starting at worksheet row 2. -/
theorem process_files_inv (l : List NamedDoc) (run : Run)
    (h : process_files l = some run) :
    run.events = (runFiles (sortByName l) 2).1
    ∧ run.processed = (runFiles (sortByName l) 2).2.1
    ∧ run.errors = (runFiles (sortByName l) 2).2.2
    ∧ ∃ f0 rest, l = f0 :: rest ∧ generate_headers f0.doc = Except.ok run.header := by
  cases l with
  | nil => simp [process_files] at h
  | cons f0 rest =>
    cases hg : generate_headers f0.doc with
    | error e => simp [process_files, hg] at h
    | ok hs =>
      simp only [process_files, hg] at h
      injection h with h
      rw [← h]
      exact ⟨rfl, rfl, rfl, f0, rest, rfl, by rw [hg]⟩

/-! ### C7 — data rows in sorted-filename order, for every enumeration -/

/-- C7: when two filesystem enumerations of the same document set (distinct
filenames) both produce a report, the reports' data-row events and counters
coincide; and in any produced report the `j`-th successfully extracted
document of the sorted-by-filename order has all its cell writes at
worksheet row `2 + j` — the data rows appear in ascending sorted-filename
order of the successful documents. -/
theorem c7_sorted_data_rows (l₁ l₂ : List NamedDoc) (run₁ run₂ : Run)
    (hp : l₁.Perm l₂) (hnd : (l₁.map NamedDoc.name).Nodup)
    (h1 : process_files l₁ = some run₁) (h2 : process_files l₂ = some run₂) :
    (run₁.events = run₂.events ∧ run₁.processed = run₂.processed
      ∧ run₁.errors = run₂.errors)
    ∧ ∀ j nm ws, (successRows (sortByName l₁))[j]? = some (nm, ws) →
        ∀ cv ∈ ws, ((2 + j, cv.1), cv.2) ∈ run₁.events := by
  obtain ⟨he1, hp1, herr1, -⟩ := process_files_inv l₁ run₁ h1
  obtain ⟨he2, hp2, herr2, -⟩ := process_files_inv l₂ run₂ h2
  have hsort := sortByName_eq_of_perm l₁ l₂ hp hnd
  refine ⟨⟨?_, ?_, ?_⟩, ?_⟩
  · rw [he1, he2, hsort]
  · rw [hp1, hp2, hsort]
  · rw [herr1, herr2, hsort]
  · intro j nm ws hj cv hcv
    rw [he1]
    exact runFiles_success_mem (sortByName l₁) 2 j nm ws hj cv hcv

/-- The files of the C7 example, in a non-sorted enumeration order. -/
def exL : List NamedDoc := [⟨"b.xlsx", docB⟩, ⟨"a.xlsx", docA⟩, ⟨"c.xlsx", docBlank⟩]

/-- The report produced from `exL`. -/
def exRun : Run := (process_files exL).getD ⟨[], [], 0, 0⟩

theorem c7_witness :
    ((exL.map NamedDoc.name).Nodup ∧ process_files exL = some exRun
      ∧ (successRows (sortByName exL))[0]? = some ("a.xlsx", wsA)
      ∧ (1, Value.str "RegA") ∈ wsA)
    ∧ ((2 + 0, 1), Value.str "RegA") ∈ exRun.events :=
  ⟨⟨by decide, by decide, by decide, by decide⟩,
    (c7_sorted_data_rows exL exL exRun exRun (List.Perm.refl _) (by decide)
        (by decide) (by decide)).2 0 "a.xlsx" wsA (by decide)
      (1, Value.str "RegA") (by decide)⟩

/-! ### C8 — which document defines the schema -/

/-- C8 as stated is false: with enumeration order ["b.xlsx", "a.xlsx"] the
schema is discovered on `docB` (the enumeration-first file), not on the
sorted-first file "a.xlsx" (`docA`), and the two documents discover
different schemas — so the schema-defining document does depend on
filesystem enumeration order. -/
theorem c8_counterexample :
    (process_files [⟨"b.xlsx", docB⟩, ⟨"a.xlsx", docA⟩]).map Run.header
      = (generate_headers docB).toOption
    ∧ (generate_headers docB).toOption ≠ (generate_headers docA).toOption
    ∧ nameLe "a.xlsx" "b.xlsx" = true := by
  refine ⟨by decide, by decide, by decide⟩

/-- C8 (amended): schema discovery runs exactly once per run, on the first
document in filesystem *enumeration* order (before sorting); the report's
header is exactly that document's discovered schema, and the data-row
events are computed by the per-file loop alone, with no per-document schema
re-derivation (each row's dynamic width follows its own document's
sentinel). -/
theorem c8_discovery_once_enumeration_first (f0 : NamedDoc) (rest : List NamedDoc)
    (run : Run) (h : process_files (f0 :: rest) = some run) :
    generate_headers f0.doc = Except.ok run.header
    ∧ run.events = (runFiles (sortByName (f0 :: rest)) 2).1 := by
  obtain ⟨he, -, -, g0, grest, heq, hgen⟩ := process_files_inv _ _ h
  injection heq with e1 e2
  subst e1
  exact ⟨hgen, he⟩

theorem c8_witness :
    (process_files exL = some exRun)
    ∧ generate_headers docB = Except.ok exRun.header :=
  ⟨by decide,
    (c8_discovery_once_enumeration_first ⟨"b.xlsx", docB⟩
      [⟨"a.xlsx", docA⟩, ⟨"c.xlsx", docBlank⟩] exRun (by decide)).1⟩

/-! ### C9 — idempotence across enumeration orders -/

/-- C9 as stated is false: the same unchanged document set, enumerated in
two different orders, yields reports with different content (the header
row differs, since it is discovered on the enumeration-first document). -/
theorem c9_counterexample :
    process_files [⟨"b.xlsx", docB⟩, ⟨"a.xlsx", docA⟩]
      ≠ process_files [⟨"a.xlsx", docA⟩, ⟨"b.xlsx", docB⟩]
    ∧ (process_files [⟨"b.xlsx", docB⟩, ⟨"a.xlsx", docA⟩]).isSome = true
    ∧ (process_files [⟨"a.xlsx", docA⟩, ⟨"b.xlsx", docB⟩]).isSome = true := by
  refine ⟨by decide, by decide, by decide⟩

/-- C9 (amended): over an unchanged document set with distinct filenames,
any two runs that produce reports have identical data-row events and
success/failure counters regardless of enumeration order; and if both runs
enumerate the same document first, the reports are identical in full — in
particular re-running with the same enumeration order reproduces the
report byte for byte. -/
theorem c9_idempotence_up_to_header (l₁ l₂ : List NamedDoc) (run₁ run₂ : Run)
    (hp : l₁.Perm l₂) (hnd : (l₁.map NamedDoc.name).Nodup)
    (h1 : process_files l₁ = some run₁) (h2 : process_files l₂ = some run₂) :
    (run₁.events = run₂.events ∧ run₁.processed = run₂.processed
      ∧ run₁.errors = run₂.errors)
    ∧ ∀ f0 t₁ t₂, l₁ = f0 :: t₁ → l₂ = f0 :: t₂ → run₁ = run₂ := by
  obtain ⟨he1, hp1, herr1, g1, r1, heq1, hgen1⟩ := process_files_inv l₁ run₁ h1
  obtain ⟨he2, hp2, herr2, g2, r2, heq2, hgen2⟩ := process_files_inv l₂ run₂ h2
  have hsort := sortByName_eq_of_perm l₁ l₂ hp hnd
  have hev : run₁.events = run₂.events := by rw [he1, he2, hsort]
  have hpc : run₁.processed = run₂.processed := by rw [hp1, hp2, hsort]
  have her : run₁.errors = run₂.errors := by rw [herr1, herr2, hsort]
  refine ⟨⟨hev, hpc, her⟩, fun f0 t₁ t₂ e₁ e₂ => ?_⟩
  have hhd : run₁.header = run₂.header := by
    rw [e₁] at heq1
    rw [e₂] at heq2
    injection heq1 with a1 _
    injection heq2 with a2 _
    rw [← a1] at hgen1
    rw [← a2] at hgen2
    rw [hgen1] at hgen2
    injection hgen2
  cases run₁
  cases run₂
  simp only at hhd hev hpc her
  rw [hhd, hev, hpc, her]

/-- The files of `exL` enumerated in a different order. -/
def exLswap : List NamedDoc := [⟨"a.xlsx", docA⟩, ⟨"b.xlsx", docB⟩, ⟨"c.xlsx", docBlank⟩]

/-- The two-element example lists in both enumeration orders. -/
def exRunSwap : Run := (process_files exLswap).getD ⟨[], [], 0, 0⟩

theorem c9_witness :
    ((exL.map NamedDoc.name).Nodup ∧ process_files exL = some exRun
      ∧ process_files exLswap = some exRunSwap)
    ∧ exRun.events = exRunSwap.events ∧ exRun.processed = exRunSwap.processed :=
  ⟨⟨by decide, by decide, by decide⟩,
    ((c9_idempotence_up_to_header exL exLswap exRun exRunSwap
        (List.Perm.swap _ _ _) (by decide) (by decide) (by decide)).1).1,
    ((c9_idempotence_up_to_header exL exLswap exRun exRunSwap
        (List.Perm.swap _ _ _) (by decide) (by decide) (by decide)).1).2.1⟩

/-! ### C6 — a failed document leaks its static writes into the report -/

/-- The failing input for C6: "a.xlsx" (`docA`) succeeds at worksheet row 2;
"b.xlsx" (`docBad`) has sheet "Folha1" but no "Convites" row. -/
def leakL : List NamedDoc := [⟨"a.xlsx", docA⟩, ⟨"b.xlsx", docBad⟩]

/-- C6 fails on the code at `leakL`: the failed document `docBad` is logged
and counted (1 processed, 1 error) and contributes no complete row, but its
static-field writes — made before the sentinel check — remain in the saved
worksheet: cell (3, 1) of the report holds `docBad`'s F1 value "LEAK",
while row 2 holds the successful document's data. -/
theorem c6_partial_write_leak :
    (process_files leakL).map (fun run =>
        (run.processed, run.errors,
         cellAt run.events 2 1, cellAt run.events 3 1,
         decide (((3, 1), Value.str "LEAK") ∈ run.events)))
      = some (1, 1, some (Value.str "RegA"), some (Value.str "LEAK"), true) := by
  decide
